import Mathlib

set_option maxRecDepth 40000

/-!
Verification of the HelixDB-MCP-Server transport/protocol/session core.

Shallow embedding of:
- the OVNT binary framing codec of `src/embedding_client.rs`
  (`write_protocol_message` / `read_protocol_message`);
- the embedding client pipeline (`validate_text_for_embedding`,
  `validate_embedding`, `embed_text_with_model`, `test_connection`);
- the pagination session store of `src/session.rs`
  (`QuerySession`, `SessionManager`);
- the embedding configuration defaults of `src/config.rs`.

Bytes are modelled as `Nat` (values below 256 where it matters), byte
streams as `List Nat`, machine-integer truncation (`as u32`) as `% 2^32`.
`f32` scalars are opaque to every property below, so embedding vectors are
modelled as `List Int`.
-/

namespace HelixMCP

/-- Decidable equality for `Except`, needed to evaluate the model's
fallible operations on concrete inputs. -/
instance {ε α : Type} [DecidableEq ε] [DecidableEq α] :
    DecidableEq (Except ε α) := fun x y =>
  match x, y with
  | .ok a, .ok b =>
    if h : a = b then .isTrue (by rw [h]) else .isFalse (by simp [h])
  | .error a, .error b =>
    if h : a = b then .isTrue (by rw [h]) else .isFalse (by simp [h])
  | .ok _, .error _ => .isFalse (by simp)
  | .error _, .ok _ => .isFalse (by simp)

/-! ## OVNT protocol constants (src/embedding_client.rs lines 11-14) -/

/-- `const MAGIC_BYTES: [u8; 4] = [0x4F, 0x56, 0x4E, 0x54]` -/
def MAGIC_BYTES : List Nat := [0x4F, 0x56, 0x4E, 0x54]

/-- `const VERSION: u8 = 0x01` -/
def VERSION : Nat := 0x01

/-- `const MSG_TYPE_DATA: u8 = 4` -/
def MSG_TYPE_DATA : Nat := 4

/-! ## Byte-stream reading primitives

`readExact n` models `stream.read_exact(&mut buf)` on an `n`-byte buffer:
it consumes exactly `n` bytes or fails with the I/O `UnexpectedEof` error.
`readU8` models `read_u8`, `readU32le` models `read_u32_le`. -/

/-- Failure modes of the read path: the two `InvalidData` protocol errors
raised by `read_protocol_message` itself, and the I/O error of a stream
that ends before the requested bytes arrive. -/
inductive ReadError where
  | invalidMagic
  | invalidVersion
  | unexpectedEof
deriving DecidableEq

def readExact (n : Nat) (input : List Nat) :
    Except ReadError (List Nat × List Nat) :=
  if n ≤ input.length then .ok (input.take n, input.drop n)
  else .error .unexpectedEof

def readU8 : List Nat → Except ReadError (Nat × List Nat)
  | [] => .error .unexpectedEof
  | b :: rest => .ok (b, rest)

def readU32le : List Nat → Except ReadError (Nat × List Nat)
  | b0 :: b1 :: b2 :: b3 :: rest =>
      .ok (b0 + b1 * 256 + b2 * 65536 + b3 * 16777216, rest)
  | _ => .error .unexpectedEof

/-- Little-endian encoding of a `u32`; `payload.len() as u32` truncates
modulo `2^32`, which the byte-wise `%`s below perform. -/
def u32le (n : Nat) : List Nat :=
  [n % 256, n / 256 % 256, n / 65536 % 256, n / 16777216 % 256]

/-! ## Write path (src/embedding_client.rs lines 142-176)

`write_protocol_message` emits, in order: magic, version, message type,
payload length (`as u32`, little-endian), the 16-byte client id, the
target-presence flag `0`, a fresh 16-byte message id, and the payload.
The two uuids come from outside the function (`self.client_id`,
`Uuid::new_v4()`), so they are parameters here. -/

def write_protocol_message (client_id message_id payload : List Nat) :
    List Nat :=
  MAGIC_BYTES ++ [VERSION, MSG_TYPE_DATA] ++ u32le payload.length
    ++ client_id ++ [0] ++ message_id ++ payload

/-! ## Read path (src/embedding_client.rs lines 179-227) -/

def read_protocol_message (input : List Nat) :
    Except ReadError (List Nat × List Nat) :=
  match readExact 4 input with
  | .error e => .error e
  | .ok (magic, r1) =>
    if magic ≠ MAGIC_BYTES then .error .invalidMagic
    else
      match readU8 r1 with
      | .error e => .error e
      | .ok (version, r2) =>
        if version ≠ VERSION then .error .invalidVersion
        else
          match readU8 r2 with
          | .error e => .error e
          | .ok (_msg_type, r3) =>
            match readU32le r3 with
            | .error e => .error e
            | .ok (length, r4) =>
              match readExact 16 r4 with
              | .error e => .error e
              | .ok (_sender_bytes, r5) =>
                match readU8 r5 with
                | .error e => .error e
                | .ok (target_tag, r6) =>
                  match (if target_tag = 1 then readExact 16 r6
                         else .ok ([], r6)) with
                  | .error e => .error e
                  | .ok (_target_bytes, r7) =>
                    match readExact 16 r7 with
                    | .error e => .error e
                    | .ok (_message_bytes, r8) =>
                      match readExact length r8 with
                      | .error e => .error e
                      | .ok (payload, r9) => .ok (payload, r9)

/-! ## Embedding configuration (src/config.rs lines 100-130)

Only the fields the client-side properties touch are modelled. -/

/-- `fn default_dimensions() -> usize { 1536 }` -/
def default_dimensions : Nat := 1536

/-- `fn default_tcp_timeout() -> u64 { 30 }` -/
def default_tcp_timeout : Nat := 30

structure EmbeddingConfig where
  dimensions : Nat
  tcp_timeout_secs : Nat
deriving DecidableEq

/-- The `Default for Config` embedding section: `dimensions: 1536`,
`tcp_timeout_secs: 30` (src/config.rs lines 241-252). -/
def EmbeddingConfig.default : EmbeddingConfig :=
  { dimensions := default_dimensions, tcp_timeout_secs := default_tcp_timeout }

/-! ## Embedding client data (src/embedding_client.rs lines 16-49) -/

/-- `enum EmbedResponse` — untagged: direct array, `{"embedding": ...}`,
or `{"vector": ...}`. `f32` entries are opaque, modelled as `Int`. -/
inductive EmbedResponse where
  | DirectArray (v : List Int)
  | Wrapped (embedding : List Int)
  | VectorWrapped (vector : List Int)
deriving DecidableEq

def EmbedResponse.get_embedding : EmbedResponse → List Int
  | .DirectArray v => v
  | .Wrapped embedding => embedding
  | .VectorWrapped vector => vector

/-! ## Client-side validation (src/embedding_client.rs lines 68-88) -/

/-- Model of Rust's external `str::trim`: drop whitespace characters from
both ends of the string. -/
def rustTrim (s : String) : String :=
  String.mk
    (((s.data.dropWhile Char.isWhitespace).reverse.dropWhile
      Char.isWhitespace).reverse)

/-- `fn validate_text_for_embedding(&self, text: &str)`: reject text whose
trim is empty, then text shorter than 3 bytes (`text.len()` is the UTF-8
byte count). -/
def validate_text_for_embedding (text : String) : Except String Unit :=
  if (rustTrim text).isEmpty then
    .error "Cannot generate embedding for empty text"
  else if text.utf8ByteSize < 3 then
    .error "Text too short for meaningful embedding"
  else
    .ok ()

/-- `async fn validate_embedding(&self, embedding: &[f32])`: the expected
dimension is the hardcoded local `expected_dim = 384`; the configured
`EmbeddingConfig.dimensions` is not consulted. -/
def validate_embedding (embedding : List Int) : Except String Unit :=
  let expected_dim := 384
  if embedding.length ≠ expected_dim then
    .error ("Invalid embedding dimension: got " ++ toString embedding.length
      ++ ", expected " ++ toString expected_dim)
  else
    .ok ()

/-! ## The embed_text_with_model pipeline (src/embedding_client.rs 96-139)

The network is external, so it is an explicit environment: the outcome of
the `TcpStream::connect` raced against the timeout, the success of the
frame write, and the raw bytes the service answers with. `rmp_serde`
(de)serialization of the response payload is likewise external and is
modelled as the environment's `decode`, which reports which of the three
`EmbedResponse` shapes (or the `ErrorResponse` shape, or neither) the
payload parses as — mirroring the source's ordered `if let Ok(...)` chain.

Each network operation the function performs is recorded as a `NetStep`
whose `withTimeout` flag says whether the source wraps that operation in
`tokio::time::timeout(self.timeout, ...)`. -/

/-- The error taxonomy observable from `embed_text_with_model`. -/
inductive EmbedError where
  | validation (msg : String)
  | timeout
  | connection
  | protocol
  | invalidResponseFormat
  | remote (msg : String)
deriving DecidableEq

/-- How an `io::Error` from `read_protocol_message` surfaces: the two
`InvalidData` rejections are protocol errors, an early end of stream is a
connection-level I/O error. -/
def ReadError.toEmbedError : ReadError → EmbedError
  | .invalidMagic => .protocol
  | .invalidVersion => .protocol
  | .unexpectedEof => .connection

inductive ConnectResult where
  | ok
  | timedOut
  | failed
deriving DecidableEq

inductive NetOp where
  | connect
  | writeFrame
  | readFrame
deriving DecidableEq

structure NetStep where
  op : NetOp
  withTimeout : Bool
deriving DecidableEq

/-- Result of the `rmp_serde::from_slice` attempts on a response payload. -/
inductive DecodeOutcome where
  | embedResp (r : EmbedResponse)
  | errorResp (msg : String)
  | malformed
deriving DecidableEq

structure NetEnv where
  connect : ConnectResult
  writeOk : Bool
  serverBytes : List Nat
  decode : List Nat → DecodeOutcome

/-- `embed_text_with_model`, step by step as in the source: validate the
text; connect (wrapped in `tokio::time::timeout`); serialize and write the
request frame (no timeout); read the response frame with
`read_protocol_message` (no timeout); decode the payload as
`EmbedResponse`, else `ErrorResponse`, else report an invalid format;
validate the embedding's dimension before returning it. -/
def embed_text_with_model (env : NetEnv) (text : String)
    (_model : Option String) : Except EmbedError (List Int) × List NetStep :=
  match validate_text_for_embedding text with
  | .error e => (.error (.validation e), [])
  | .ok _ =>
    match env.connect with
    | .timedOut => (.error .timeout, [⟨.connect, true⟩])
    | .failed => (.error .connection, [⟨.connect, true⟩])
    | .ok =>
      if env.writeOk = false then
        (.error .connection, [⟨.connect, true⟩, ⟨.writeFrame, false⟩])
      else
        let steps := [⟨.connect, true⟩, ⟨.writeFrame, false⟩,
          ⟨.readFrame, false⟩]
        match read_protocol_message env.serverBytes with
        | .error e => (.error e.toEmbedError, steps)
        | .ok (payload, _) =>
          match env.decode payload with
          | .embedResp r =>
            match validate_embedding r.get_embedding with
            | .error e =>
                (.error (.validation ("Embedding validation failed: " ++ e)),
                  steps)
            | .ok _ => (.ok r.get_embedding, steps)
          | .errorResp msg =>
              (.error (.remote ("Server error: " ++ msg)), steps)
          | .malformed => (.error .invalidResponseFormat, steps)

/-- `embed_text` delegates to `embed_text_with_model` with no model
override (src/embedding_client.rs lines 90-93). -/
def embed_text (env : NetEnv) (text : String) :
    Except EmbedError (List Int) × List NetStep :=
  embed_text_with_model env text none

/-- `async fn test_connection(&self)` (src/embedding_client.rs 230-237):
a timeout-bounded `TcpStream::connect` and nothing else — no frame is
written or read. -/
def test_connection (env : NetEnv) : Except EmbedError Unit × List NetStep :=
  match env.connect with
  | .timedOut => (.error .timeout, [⟨.connect, true⟩])
  | .failed => (.error .connection, [⟨.connect, true⟩])
  | .ok => (.ok (), [⟨.connect, true⟩])

/-! ## Pagination session store (src/session.rs)

`serde_json::Value` result items are opaque to every property, so
`QuerySession` is parametric in the item type. `Uuid::new_v4()` and
`SystemTime::now()` are external inputs, passed as the `session_id` and
`created_at` parameters; time is modelled as a `Nat` of seconds. -/

structure QuerySession (α : Type) where
  session_id : String
  query : String
  results : List α
  cursor : Nat
  total_count : Nat
  created_at : Nat
deriving DecidableEq

/-- `QuerySession::new` (src/session.rs lines 17-27): fresh session with
`cursor: 0` and `total_count: results.len()`. -/
def QuerySession.new (session_id : String) (created_at : Nat)
    (query : String) (results : List α) : QuerySession α :=
  { session_id, query, results, cursor := 0,
    total_count := results.length, created_at }

/-- `QuerySession::next` (src/session.rs lines 30-38): slice
`results[cursor .. min (cursor+limit) results.len()]` and advance the
cursor to the slice's end. (The Rust range slice requires
`cursor ≤ results.len()`, the store's invariant; `drop`/`take` agree with
it exactly on that domain.) -/
def QuerySession.next (s : QuerySession α) (limit : Nat) :
    List α × QuerySession α :=
  let start := s.cursor
  let stop := min (start + limit) s.results.length
  let batch := (s.results.drop start).take (stop - start)
  (batch, { s with cursor := stop })

/-- `QuerySession::collect_all` (src/session.rs lines 41-45): every
remaining item, cursor set to the end. -/
def QuerySession.collect_all (s : QuerySession α) :
    List α × QuerySession α :=
  (s.results.drop s.cursor, { s with cursor := s.results.length })

/-- `QuerySession::has_more` (src/session.rs lines 48-50):
`cursor < results.len()`. -/
def QuerySession.has_more (s : QuerySession α) : Bool :=
  s.cursor < s.results.length

/-- Repeated `next` calls with a given list of limits; concatenates every
returned batch in order, keeping the final session state. -/
def runNext (s : QuerySession α) : List Nat → List α × QuerySession α
  | [] => ([], s)
  | l :: ls =>
    let p := s.next l
    let q := runNext p.2 ls
    (p.1 ++ q.1, q.2)

/-- `SessionManager` (src/session.rs lines 54-56): the `HashMap` is
modelled as an association list with `HashMap::insert` semantics. -/
structure SessionManager (α : Type) where
  sessions : List (String × QuerySession α)
deriving DecidableEq

/-- `HashMap::insert`: bind the key, replacing any previous binding. -/
def hmInsert (k : String) (v : QuerySession α)
    (l : List (String × QuerySession α)) : List (String × QuerySession α) :=
  (k, v) :: l.filter (fun p => p.1 != k)

/-- `SessionManager::cleanup_old_sessions` (src/session.rs lines 90-99):
retain a session iff `now.duration_since(created_at)` succeeds (i.e.
`created_at ≤ now`) and is under one hour. -/
def SessionManager.cleanup_old_sessions (m : SessionManager α) (now : Nat) :
    SessionManager α :=
  ⟨m.sessions.filter
    (fun p => decide (p.2.created_at ≤ now ∧ now - p.2.created_at < 3600))⟩

/-- `SessionManager::create_session` (src/session.rs lines 66-77): build a
fresh session, insert it, and run the cleanup sweep when the store then
holds more than 100 sessions. -/
def SessionManager.create_session (m : SessionManager α) (now : Nat)
    (session_id : String) (query : String) (results : List α) :
    String × SessionManager α :=
  let session := QuerySession.new session_id now query results
  let m1 : SessionManager α := ⟨hmInsert session_id session m.sessions⟩
  let m2 := if 100 < m1.sessions.length
    then m1.cleanup_old_sessions now else m1
  (session_id, m2)

/-- `SessionManager::remove_session` (src/session.rs lines 85-87):
idempotent deletion, reporting whether the id was present. -/
def SessionManager.remove_session (m : SessionManager α)
    (session_id : String) : Bool × SessionManager α :=
  ((m.sessions.filter (fun p => p.1 == session_id)).length != 0,
    ⟨m.sessions.filter (fun p => p.1 != session_id)⟩)

/-! ## Concrete fixtures for witnesses and counterexamples -/

def zeros16 : List Nat := List.replicate 16 0

def ones16 : List Nat := List.replicate 16 1

/-- A fully cooperative environment: the connection succeeds, the write
succeeds, the service answers with one well-formed empty-payload frame,
and the payload decodes to a direct 384-element vector. -/
def envOk : NetEnv :=
  { connect := .ok, writeOk := true,
    serverBytes := write_protocol_message zeros16 ones16 [],
    decode := fun _ => .embedResp (.DirectArray (List.replicate 384 0)) }

/-- Same service behaviour, but the connection attempt times out. -/
def envTimedOut : NetEnv := { envOk with connect := .timedOut }

/-- Same as `envOk` but the decoded vector has the wrong dimension. -/
def envWrongDim : NetEnv :=
  { envOk with decode := fun _ => .embedResp (.DirectArray [1, 2, 3]) }

/-- One aged stored session (created at time 0). -/
def mkOldSession (i : Nat) : String × QuerySession Nat :=
  ("s" ++ toString i, QuerySession.new ("s" ++ toString i) 0 "old query" [])

/-- A store holding 100 distinct sessions, all created at time 0. -/
def m100 : SessionManager Nat := ⟨(List.range 100).map mkOldSession⟩

/-! # Theorems -/

/-! ## Codec helper lemmas -/

theorem readExact_append (n : Nat) (xs ys : List Nat) (h : xs.length = n) :
    readExact n (xs ++ ys) = .ok (xs, ys) := by
  subst h
  simp [readExact, List.take_left, List.drop_left]

theorem readU8_cons (b : Nat) (rest : List Nat) :
    readU8 (b :: rest) = .ok (b, rest) := rfl

theorem readU32le_u32le (n : Nat) (rest : List Nat) (h : n < 4294967296) :
    readU32le (u32le n ++ rest) = .ok (n, rest) := by
  simp only [u32le, List.cons_append, List.nil_append, readU32le]
  congr 1
  congr 1
  omega

/-- Any frame whose magic and version check out and whose declared length
matches the payload is accepted, whatever the message-type byte is, and
the payload is returned with the remaining stream untouched. -/
theorem read_frame_ok (msg_type : Nat) (sender mid payload extra : List Nat)
    (hs : sender.length = 16) (hm : mid.length = 16)
    (hp : payload.length < 4294967296) :
    read_protocol_message
      (MAGIC_BYTES ++ [VERSION, msg_type] ++ u32le payload.length
        ++ sender ++ [0] ++ mid ++ (payload ++ extra))
      = .ok (payload, extra) := by
  have h4 : (MAGIC_BYTES : List Nat).length = 4 := rfl
  simp only [read_protocol_message, List.append_assoc, List.cons_append,
    List.nil_append]
  rw [readExact_append 4 MAGIC_BYTES _ h4]
  simp only [readU8_cons, ne_eq, not_true_eq_false, reduceIte,
    readU32le_u32le _ _ hp, readExact_append 16 sender _ hs,
    readExact_append 16 mid _ hm,
    readExact_append payload.length payload extra rfl]
  norm_num [readExact_append 16 mid _ hm,
    readExact_append payload.length payload extra rfl]

/-! ## Claim C1 — encode/decode round trip -/

/-- C1: encoding any payload that fits the 4-byte length field with
`write_protocol_message` and decoding the resulting byte stream with
`read_protocol_message` yields exactly the original payload (and consumes
the whole stream). -/
theorem c1_frame_roundtrip (client_id message_id payload : List Nat)
    (hc : client_id.length = 16) (hm : message_id.length = 16)
    (hp : payload.length < 4294967296) :
    read_protocol_message
      (write_protocol_message client_id message_id payload)
      = .ok (payload, []) := by
  have h := read_frame_ok MSG_TYPE_DATA client_id message_id payload []
    hc hm hp
  simpa [write_protocol_message, List.append_assoc] using h

/-- C1 witness: the round trip evaluated at a concrete frame. -/
theorem c1_frame_roundtrip_witness :
    zeros16.length = 16 ∧ ones16.length = 16 ∧
      ([7, 8, 9] : List Nat).length < 4294967296 ∧
      read_protocol_message (write_protocol_message zeros16 ones16 [7, 8, 9])
        = .ok ([7, 8, 9], []) :=
  ⟨by decide, by decide, by decide,
    c1_frame_roundtrip zeros16 ones16 [7, 8, 9]
      (by decide) (by decide) (by decide)⟩

/-! ## Claim C3 — magic / version rejection -/

/-- C3: a stream whose first four bytes differ from the magic constant is
rejected with the magic protocol error whatever bytes follow, and a stream
with correct magic but a version byte other than the supported one is
rejected with the version protocol error whatever bytes follow — so no
partially-interpreted payload can be returned in either case. -/
theorem c3_reject_bad_magic_or_version (m rest rest2 : List Nat) (v : Nat)
    (h4 : m.length = 4) (hm : m ≠ MAGIC_BYTES) (hv : v ≠ VERSION) :
    read_protocol_message (m ++ rest) = .error .invalidMagic
    ∧ read_protocol_message (MAGIC_BYTES ++ v :: rest2)
        = .error .invalidVersion := by
  constructor
  · simp only [read_protocol_message, readExact_append 4 m rest h4]
    simp [hm]
  · have h4' : (MAGIC_BYTES : List Nat).length = 4 := rfl
    simp only [read_protocol_message, readExact_append 4 MAGIC_BYTES _ h4']
    simp [readU8_cons, hv]

/-- C3 witness: concrete bad-magic and bad-version streams. -/
theorem c3_reject_bad_magic_or_version_witness :
    ([0, 0, 0, 0] : List Nat).length = 4 ∧
      ([0, 0, 0, 0] : List Nat) ≠ MAGIC_BYTES ∧ (2 : Nat) ≠ VERSION ∧
      read_protocol_message ([0, 0, 0, 0] ++ [1, 2, 3])
        = .error .invalidMagic ∧
      read_protocol_message (MAGIC_BYTES ++ 2 :: [9, 9])
        = .error .invalidVersion := by
  refine ⟨by decide, by decide, by decide, ?_⟩
  exact c3_reject_bad_magic_or_version [0, 0, 0, 0] [1, 2, 3] [9, 9] 2
    (by decide) (by decide) (by decide)

/-! ## Claim C10 — message type read but never validated -/

/-- C10: for every value of the 1-byte message-type field, a frame whose
magic, version, and declared payload length check out is accepted and its
payload returned — the discriminator is read but not validated. -/
theorem c10_msg_type_unchecked (msg_type : Nat)
    (sender mid payload extra : List Nat)
    (hs : sender.length = 16) (hm : mid.length = 16)
    (hp : payload.length < 4294967296) :
    read_protocol_message
      (MAGIC_BYTES ++ [VERSION, msg_type] ++ u32le payload.length
        ++ sender ++ [0] ++ mid ++ (payload ++ extra))
      = .ok (payload, extra) :=
  read_frame_ok msg_type sender mid payload extra hs hm hp

/-- C10 witness: a frame with the unused message-type value 255 is
accepted. -/
theorem c10_msg_type_unchecked_witness :
    zeros16.length = 16 ∧ ones16.length = 16 ∧
      ([5] : List Nat).length < 4294967296 ∧
      read_protocol_message
        (MAGIC_BYTES ++ [VERSION, 255] ++ u32le ([5] : List Nat).length
          ++ zeros16 ++ [0] ++ ones16 ++ ([5] ++ [6]))
        = .ok ([5], [6]) :=
  ⟨by decide, by decide, by decide,
    c10_msg_type_unchecked 255 zeros16 ones16 [5] [6]
      (by decide) (by decide) (by decide)⟩

/-! ## Embedding-client helper lemmas -/

theorem validate_embedding_ok_length (emb : List Int) (u : Unit)
    (h : validate_embedding emb = .ok u) : emb.length = 384 := by
  by_cases hlen : emb.length = 384
  · exact hlen
  · simp [validate_embedding, hlen] at h

/-- Every network step an `embed_text_with_model` call records is one of
the three steps of the pipeline: the timeout-bounded connect, the
unbounded frame write, the unbounded frame read. -/
theorem embed_steps_sub (env : NetEnv) (text : String)
    (model : Option String) :
    ∀ s ∈ (embed_text_with_model env text model).2,
      s ∈ ([⟨.connect, true⟩, ⟨.writeFrame, false⟩, ⟨.readFrame, false⟩] :
        List NetStep) := by
  intro s hs
  unfold embed_text_with_model at hs
  repeat' split at hs
  all_goals simp_all
  all_goals tauto

/-! ## Claim C2 — which operations the timeout bounds -/

/-- C2 counterexample: a successful `embed_text_with_model` call performs
the frame write (and frame read) without any timeout wrapper, so it is
false that every network operation of the call is bounded by the
configured timeout. -/
theorem c2_counterexample_unbounded_write :
    NetStep.mk .writeFrame false
        ∈ (embed_text_with_model envOk "Hello, world!" none).2
    ∧ NetStep.mk .readFrame false
        ∈ (embed_text_with_model envOk "Hello, world!" none).2
    ∧ ((embed_text_with_model envOk "Hello, world!" none).2.all
        (fun s => s.withTimeout)) = false := by
  decide

/-- C2 amended: only the connection attempt is wrapped in
`tokio::time::timeout`; the frame write and the response read are not.
A connect that exceeds the timeout yields a timeout error, which is
distinct from an application-level remote error. -/
theorem c2_only_connect_bounded (env : NetEnv) (text : String)
    (model : Option String) :
    (∀ s ∈ (embed_text_with_model env text model).2,
      (s.withTimeout = true ↔ s.op = NetOp.connect))
    ∧ (validate_text_for_embedding text = .ok () →
        env.connect = .timedOut →
        (embed_text_with_model env text model).1 = .error .timeout)
    ∧ (∀ msg, EmbedError.timeout ≠ EmbedError.remote msg) := by
  refine ⟨?_, ?_, ?_⟩
  · intro s hs
    have h := embed_steps_sub env text model s hs
    simp only [List.mem_cons, List.not_mem_nil, or_false] at h
    rcases h with rfl | rfl | rfl <;> simp
  · intro hval hconn
    simp [embed_text_with_model, hval, hconn]
  · intro msg h
    exact EmbedError.noConfusion h

/-- C2 amended, witness: the connect-timeout environment produces the
timeout error on a valid text. -/
theorem c2_only_connect_bounded_witness :
    validate_text_for_embedding "Hello, world!" = .ok ()
    ∧ envTimedOut.connect = .timedOut
    ∧ (embed_text_with_model envTimedOut "Hello, world!" none).1
        = .error .timeout :=
  ⟨by decide, by decide,
    (c2_only_connect_bounded envTimedOut "Hello, world!" none).2.1
      (by decide) (by decide)⟩

/-! ## Claim C4 — local validation before any network I/O -/

/-- C4: when the text trims to empty (empty or whitespace-only input) or
is shorter than 3 bytes, `embed_text_with_model` records zero network
steps — no connection attempt happens — and returns a validation error. -/
theorem c4_local_validation_no_network (text : String)
    (h : (rustTrim text).isEmpty = true ∨ text.utf8ByteSize < 3)
    (env : NetEnv) (model : Option String) :
    (embed_text_with_model env text model).2 = []
    ∧ ∃ msg, (embed_text_with_model env text model).1
        = .error (.validation msg) := by
  have hv : ∃ msg, validate_text_for_embedding text = .error msg := by
    unfold validate_text_for_embedding
    rcases h with h | h
    · exact ⟨"Cannot generate embedding for empty text", by simp [h]⟩
    · by_cases ht : (rustTrim text).isEmpty
      · exact ⟨"Cannot generate embedding for empty text", by simp [ht]⟩
      · exact ⟨"Text too short for meaningful embedding", by simp [ht, h]⟩
  obtain ⟨msg, hmsg⟩ := hv
  unfold embed_text_with_model
  rw [hmsg]
  exact ⟨rfl, msg, rfl⟩

/-- C4 witness: `embed_text("hi")` (2 bytes, below the minimum length)
fails locally with zero network steps. -/
theorem c4_local_validation_no_network_witness :
    ((rustTrim "hi").isEmpty = true ∨ "hi".utf8ByteSize < 3)
    ∧ (embed_text_with_model envOk "hi" none).2 = []
    ∧ ∃ msg, (embed_text_with_model envOk "hi" none).1
        = .error (.validation msg) :=
  ⟨Or.inr (by decide),
    c4_local_validation_no_network "hi" (Or.inr (by decide)) envOk none⟩

/-! ## Claim C5 — expected dimensionality -/

/-- C5 counterexample: with the default configuration
(`dimensions = 1536`), a call receiving a 384-element vector succeeds
although 384 is not the configured dimensionality — the check compares
against the hardcoded 384, not against the configuration. -/
theorem c5_counterexample_config_dimensions :
    (embed_text_with_model envOk "Hello, world!" none).1
        = .ok (List.replicate 384 0)
    ∧ (List.replicate 384 (0 : Int)).length
        ≠ EmbeddingConfig.default.dimensions := by
  constructor
  · decide
  · decide

/-- C5 amended: the call succeeds only if the received vector's length
equals the hardcoded expected dimension 384 (the configured
`dimensions`, whose default is 1536, is not consulted); a length mismatch
yields a validation error, a constructor distinct from the timeout,
remote, protocol, and connection errors. -/
theorem c5_hardcoded_dimension_check (env : NetEnv) (text : String)
    (model : Option String) :
    (∀ v, (embed_text_with_model env text model).1 = .ok v →
      v.length = 384)
    ∧ (∀ emb : List Int, emb.length ≠ 384 →
        ∃ msg, validate_embedding emb = .error msg)
    ∧ EmbeddingConfig.default.dimensions = 1536
    ∧ (∀ msg, EmbedError.validation msg ≠ .timeout
        ∧ EmbedError.validation msg ≠ .connection
        ∧ EmbedError.validation msg ≠ .protocol
        ∧ EmbedError.validation msg ≠ .invalidResponseFormat
        ∧ ∀ m2, EmbedError.validation msg ≠ .remote m2) := by
  refine ⟨?_, ?_, rfl, ?_⟩
  · intro v h
    unfold embed_text_with_model at h
    repeat' split at h
    all_goals simp_all
    rename_i heq
    obtain ⟨rfl⟩ := h
    exact validate_embedding_ok_length _ _ heq
  · intro emb h
    exact ⟨"Invalid embedding dimension: got " ++ toString emb.length
      ++ ", expected " ++ toString (384 : Nat),
      by simp [validate_embedding, h]⟩
  · intro msg
    refine ⟨?_, ?_, ?_, ?_, fun m2 => ?_⟩ <;> intro h <;>
      exact EmbedError.noConfusion h

/-- C5 amended, witness: a response vector of length 3 makes the call fail
with a validation error, and a success carries a 384-element vector. -/
theorem c5_hardcoded_dimension_check_witness :
    (embed_text_with_model envOk "Hello, world!" none).1
        = .ok (List.replicate 384 0)
    ∧ (List.replicate 384 (0 : Int)).length = 384
    ∧ ([1, 2, 3] : List Int).length ≠ 384
    ∧ ∃ msg, validate_embedding [1, 2, 3] = .error msg :=
  ⟨by decide, by decide, by decide,
    (c5_hardcoded_dimension_check envOk "Hello, world!" none).2.1
      [1, 2, 3] (by decide)⟩

/-! ## Claim C6 — what test_connection does -/

/-- C6 counterexample: `test_connection` reports the service reachable
after a successful connect alone — its step trace contains no frame write
and no frame read, contradicting the claim that it performs the same
connect-plus-round-trip sequence as an embedding request. -/
theorem c6_counterexample_no_roundtrip :
    (test_connection envOk).1 = .ok ()
    ∧ (test_connection envOk).2.all (fun s => s.op == NetOp.connect)
        = true := by
  decide

/-- C6 amended: the liveness check performs exactly one network
operation — the timeout-bounded connection attempt — and writes no
request frame and reads no response frame before reporting the service
reachable. -/
theorem c6_connect_only (env : NetEnv) :
    (test_connection env).2 = [⟨.connect, true⟩] := by
  unfold test_connection
  split <;> rfl

/-! ## Session helper lemmas -/

theorem next_batch (s : QuerySession α) (limit : Nat)
    (h : s.cursor ≤ s.results.length) :
    (s.next limit).1 = (s.results.drop s.cursor).take limit := by
  have hlen : (s.results.drop s.cursor).length
      = s.results.length - s.cursor := List.length_drop _ _
  simp only [QuerySession.next]
  have he : min (s.cursor + limit) s.results.length - s.cursor
      = min limit ((s.results.drop s.cursor).length) := by
    rw [hlen]; omega
  rw [he, ← List.take_take, List.take_length]

/-- Draining lemma: starting from any in-invariant cursor, enough `next`
calls with positive limits return exactly the remaining items, in order,
and leave the cursor at the end with the results untouched. -/
theorem runNext_drain (limits : List Nat) (s : QuerySession α)
    (hc : s.cursor ≤ s.results.length)
    (h1 : ∀ l ∈ limits, 1 ≤ l)
    (hn : s.results.length - s.cursor ≤ limits.length) :
    (runNext s limits).1 = s.results.drop s.cursor
    ∧ (runNext s limits).2.cursor = s.results.length
    ∧ (runNext s limits).2.results = s.results := by
  induction limits generalizing s with
  | nil =>
    have hce : s.cursor = s.results.length := by
      simp only [List.length_nil] at hn; omega
    simp [runNext, hce, List.drop_length]
  | cons l ls ih =>
    have hl : 1 ≤ l := h1 l (List.mem_cons_self _ _)
    have h1' : ∀ x ∈ ls, 1 ≤ x := fun x hx => h1 x (List.mem_cons_of_mem _ hx)
    have hlen : (s.results.drop s.cursor).length
        = s.results.length - s.cursor := List.length_drop _ _
    set s1 : QuerySession α :=
      { s with cursor := min (s.cursor + l) s.results.length } with hs1
    have hres1 : s1.results = s.results := rfl
    have hcur1 : s1.cursor = min (s.cursor + l) s.results.length := rfl
    have hc1 : s1.cursor ≤ s1.results.length := by
      rw [hcur1, hres1]; omega
    have hn1 : s1.results.length - s1.cursor ≤ ls.length := by
      rw [hcur1, hres1]
      simp only [List.length_cons] at hn
      omega
    obtain ⟨ihj, ihc, ihr⟩ := ih s1 hc1 h1' hn1
    have hnext : s.next l
        = ((s.results.drop s.cursor).take
            (min (s.cursor + l) s.results.length - s.cursor), s1) := by
      simp only [QuerySession.next, hs1]
    constructor
    · show (s.next l).1 ++ (runNext (s.next l).2 ls).1 = _
      rw [hnext]
      simp only []
      rw [ihj, hres1, hcur1]
      have hdd : s.results.drop (min (s.cursor + l) s.results.length)
          = (s.results.drop s.cursor).drop
              (min (s.cursor + l) s.results.length - s.cursor) := by
        rw [List.drop_drop]
        congr 1
        omega
      rw [hdd, List.take_append_drop]
    · constructor
      · show (runNext (s.next l).2 ls).2.cursor = _
        rw [hnext]
        simp only []
        rw [ihc, hres1]
      · show (runNext (s.next l).2 ls).2.results = _
        rw [hnext]
        simp only []
        rw [ihr, hres1]

/-! ## Claim C7 — pagination semantics of next / has_more -/

/-- C7: `next limit` returns the up-to-`limit` items starting at the
cursor and advances the cursor by exactly the number returned; starting
from a fresh session, repeated `next` calls with positive limits (enough
of them) deliver each of the `n` items exactly once in order; and
`has_more` is false exactly when the cursor equals `n`. -/
theorem c7_pagination (s : QuerySession α) (limit : Nat)
    (h : s.cursor ≤ s.results.length)
    (limits : List Nat) (hl : ∀ l ∈ limits, 1 ≤ l)
    (id q : String) (now : Nat) (res : List α)
    (hn : res.length ≤ limits.length) :
    (s.next limit).1 = (s.results.drop s.cursor).take limit
    ∧ (s.next limit).1.length ≤ limit
    ∧ (s.next limit).2.cursor = s.cursor + (s.next limit).1.length
    ∧ (runNext (QuerySession.new id now q res) limits).1 = res
    ∧ (runNext (QuerySession.new id now q res) limits).2.has_more = false
    ∧ (s.has_more = false ↔ s.cursor = s.results.length) := by
  have hb := next_batch s limit h
  have hlen : (s.results.drop s.cursor).length
      = s.results.length - s.cursor := List.length_drop _ _
  have hdrain := runNext_drain limits (QuerySession.new id now q res)
    (by simp [QuerySession.new]) hl
    (by simp [QuerySession.new]; omega)
  obtain ⟨hj, hc, hr⟩ := hdrain
  refine ⟨hb, ?_, ?_, ?_, ?_, ?_⟩
  · rw [hb]
    simp only [List.length_take]
    omega
  · rw [hb]
    simp only [QuerySession.next, List.length_take]
    rw [hlen]
    omega
  · rw [hj]
    simp [QuerySession.new]
  · simp only [QuerySession.has_more, hc, hr]
    simp
  · simp only [QuerySession.has_more]
    rw [decide_eq_false_iff_not]
    omega

/-- C7 witness: a 3-element result set drained with limits `[2, 2, 2]`. -/
theorem c7_pagination_witness :
    ((QuerySession.new "sid" 0 "q" [10, 20, 30] : QuerySession Nat).next 2).1
        = [10, 20]
    ∧ (runNext (QuerySession.new "sid" 0 "q" ([10, 20, 30] : List Nat))
        [2, 2, 2]).1 = [10, 20, 30]
    ∧ (runNext (QuerySession.new "sid" 0 "q" ([10, 20, 30] : List Nat))
        [2, 2, 2]).2.has_more = false := by
  have h := c7_pagination
    (QuerySession.new "sid" 0 "q" ([10, 20, 30] : List Nat)) 2
    (by decide) [2, 2, 2] (by decide) "sid" "q" 0 [10, 20, 30] (by decide)
  exact ⟨by rw [h.1]; decide, h.2.2.2.1, h.2.2.2.2.1⟩

/-! ## Claim C8 — the cursor invariant -/

/-- C8: a fresh session starts with cursor 0 (hence within bounds);
`next` keeps the cursor within `0 ≤ cursor ≤ len(results)` (the lower
bound is inherent to `Nat`); and `collect_all` leaves the cursor exactly
at `len(results)`. -/
theorem c8_cursor_invariant (id q : String) (now : Nat) (res : List α)
    (s : QuerySession α) (limit : Nat)
    (h : s.cursor ≤ s.results.length) :
    (QuerySession.new id now q res : QuerySession α).cursor = 0
    ∧ (QuerySession.new id now q res : QuerySession α).cursor
        ≤ (QuerySession.new id now q res : QuerySession α).results.length
    ∧ (s.next limit).2.cursor ≤ (s.next limit).2.results.length
    ∧ s.collect_all.2.cursor = s.collect_all.2.results.length := by
  refine ⟨rfl, Nat.zero_le _, ?_, rfl⟩
  simp only [QuerySession.next]
  omega

/-- C8 witness: the invariant evaluated on a concrete session. -/
theorem c8_cursor_invariant_witness :
    (QuerySession.new "sid" 7 "q" ([4, 5] : List Nat)).cursor = 0
    ∧ (QuerySession.new "sid" 7 "q" ([4, 5] : List Nat)).cursor
        ≤ (QuerySession.new "sid" 7 "q" ([4, 5] : List Nat)).results.length
    ∧ ((QuerySession.new "sid" 7 "q" ([4, 5] : List Nat)).next 9).2.cursor
        ≤ ((QuerySession.new "sid" 7 "q"
            ([4, 5] : List Nat)).next 9).2.results.length
    ∧ (QuerySession.new "sid" 7 "q"
        ([4, 5] : List Nat)).collect_all.2.cursor
        = (QuerySession.new "sid" 7 "q"
            ([4, 5] : List Nat)).collect_all.2.results.length :=
  c8_cursor_invariant "sid" "q" 7 [4, 5]
    (QuerySession.new "sid" 7 "q" [4, 5]) 9 (by decide)

/-! ## Claim C9 — the eviction sweep -/

/-- C9: whenever inserting a session leaves the store with more than 100
entries, the sweep runs and every remaining session was created at most
one hour before `now` (and not in the future) — in particular every
stored session older than one hour is deleted. -/
theorem c9_eviction_sweep (m : SessionManager α) (now : Nat)
    (id q : String) (res : List α)
    (h : 100 < (hmInsert id (QuerySession.new id now q res)
      m.sessions).length) :
    ∀ p ∈ ((m.create_session now id q res).2).sessions,
      p.2.created_at ≤ now ∧ now - p.2.created_at < 3600 := by
  intro p hp
  unfold SessionManager.create_session at hp
  simp only [h, if_pos] at hp
  unfold SessionManager.cleanup_old_sessions at hp
  simp only [List.mem_filter] at hp
  exact of_decide_eq_true hp.2

/-- C9 witness: inserting a 101st session into a store of 100 sessions
all older than one hour removes every aged session — only the fresh one
remains. -/
theorem c9_eviction_sweep_witness :
    ((m100.create_session 4000 "fresh" "q" ([] : List Nat)).2).sessions
        = [("fresh", QuerySession.new "fresh" 4000 "q" [])]
    ∧ ((QuerySession.new "fresh" 4000 "q" ([] : List Nat)).created_at ≤ 4000
        ∧ 4000 - (QuerySession.new "fresh" 4000 "q"
            ([] : List Nat)).created_at < 3600) :=
  ⟨by decide,
    c9_eviction_sweep m100 4000 "fresh" "q" [] (by decide)
      ("fresh", QuerySession.new "fresh" 4000 "q" []) (by decide)⟩
